import Mathlib

/-!
Shallow embedding of the agent-health-check bot (src/src/index.ts together
with the command dispatcher `handleTextMessage` of src/unnamed/part_000).

The messaging-network client is modelled as an environment of oracles
(`Env`); wall-clock time (`new Date()`) is modelled by a monotone counter
carried in the state, bumped at every construction site.  Outbound sends
are recorded in a log of `SendEvent`s; sends issued by the broadcast timer
may fail (the per-tick `sendOk` oracle), which mirrors the try/catch around
`conversation.send` in the timer callback.
-/

set_option maxHeartbeats 1000000
set_option maxRecDepth 8000

/-- `MessageRecord` of src/src/index.ts (lines 27-34).  `timestamp` is the
model clock value at which the record was constructed. -/
structure MessageRecord where
  senderInboxId : String
  senderAddress : String
  timestamp : Nat
  conversationId : String
  messageContent : Option String
  contentType : String
deriving DecidableEq, Repr

/-- `AgentResponse` of src/src/index.ts (lines 37-42). -/
structure AgentResponse where
  senderInboxId : String
  senderAddress : String
  lastResponseTime : Nat
  conversationId : String
deriving DecidableEq, Repr

/-- One outbound `conversation.send(text)`; `ok` records whether the
transport accepted it (broadcast-timer sends may fail). -/
structure SendEvent where
  conv : String
  text : String
  ok : Bool
deriving DecidableEq, Repr

/-- The mutable session state owned by `main`: the four tracking
collections, the broadcasting flag, and the model clock. -/
structure BotState where
  activeConversations : List String
  isActive : Bool
  messageHistory : List MessageRecord
  uniqueSenders : List String
  uniqueWalletAddresses : List String
  agentResponses : List AgentResponse
  now : Nat
deriving DecidableEq, Repr

/-- An inbound message from the stream.  `contentTypeId` models
`message.contentType?.typeId` (`none` when `contentType` is absent). -/
structure InboundMessage where
  senderInboxId : String
  conversationId : String
  contentTypeId : Option String
  content : String
deriving DecidableEq, Repr

/-- The opaque messaging-network collaborator: the agent's own inbox id,
`getWalletAddressFromInboxId` and `getConversationById` (modelled by
whether the conversation is found). -/
structure Env where
  agentInboxId : String
  resolveAddress : String → Option String
  convExists : String → Bool

/-- Hard-coded excluded address, src/src/index.ts line 24. -/
def SKIP_TRACKING_ADDRESS : String := "0xA5A79Fb7E772b51B12200B2f6282b1beE36dC3cE"

/-- JS `Set.add`: append if absent (insertion order preserved). -/
def addSet (l : List String) (x : String) : List String :=
  if l.contains x then l else l ++ [x]

/-- JS `Set.delete`. -/
def delSet (l : List String) (x : String) : List String :=
  l.filter (fun y => !(y == x))

/-- JS `String.prototype.toLowerCase` on one character (ASCII range, the
only characters appearing in addresses, inbox ids and commands). -/
def lowerChar (c : Char) : Char :=
  if 65 ≤ c.toNat ∧ c.toNat ≤ 90 then Char.ofNat (c.toNat + 32) else c

/-- JS `s.toLowerCase()`, character-wise. -/
def strToLower (s : String) : String :=
  ⟨s.data.map lowerChar⟩

/-- JS whitespace test for `trim` (ASCII whitespace). -/
def isSpaceChar (c : Char) : Bool :=
  c == ' ' || c == '\t' || c == '\n' || c == '\r'

/-- JS `s.trim()`: strip whitespace from both ends. -/
def strTrim (s : String) : String :=
  ⟨((s.data.dropWhile isSpaceChar).reverse.dropWhile isSpaceChar).reverse⟩

/-- Character-list version of JS `String.prototype.startsWith`. -/
def startsWithChars : List Char → List Char → Bool
  | [], _ => true
  | _ :: _, [] => false
  | p :: ps, t :: ts => p == t && startsWithChars ps ts

/-- Character-list version of JS `String.prototype.includes`. -/
def containsChars (pat : List Char) : List Char → Bool
  | [] => pat.isEmpty
  | t :: ts => startsWithChars pat (t :: ts) || containsChars pat ts

/-- JS `s.includes(pat)`. -/
def strContains (s pat : String) : Bool :=
  containsChars pat.data s.data

/-- JS `address.substring(0, 8) + "..." + address.slice(-6)`, the shortened
wallet-address rendering used by /stats and /report. -/
def shortenAddress (address : String) : String :=
  address.take 8 ++ "..." ++ address.drop (address.length - 6)

/-- `Date.prototype.toLocaleString`.  Locale rendering is environment
dependent; it is modelled as decimal rendering of the clock value.  No
claim depends on this string. -/
def dateToLocaleString (t : Nat) : String :=
  toString t

/-- `updateAgentResponse` of src/src/index.ts (lines 99-111): overwrite the
existing record's `lastResponseTime` with the current time, or insert a
fresh record.  The model clock is bumped past the written time. -/
def updateAgentResponse (s : BotState) (senderInboxId senderAddress conversationId : String) :
    BotState :=
  match s.agentResponses.find? (fun r => r.senderInboxId == senderInboxId) with
  | some _ =>
      { s with
        agentResponses :=
          s.agentResponses.map (fun r =>
            if r.senderInboxId == senderInboxId then
              { r with lastResponseTime := s.now }
            else r),
        now := s.now + 1 }
  | none =>
      { s with
        agentResponses :=
          s.agentResponses ++ [⟨senderInboxId, senderAddress, s.now, conversationId⟩],
        now := s.now + 1 }

/-- `getStatusIndicator` of the /report command (src/unnamed/part_000 lines
119-130).  Times are milliseconds; `Math.floor` is floor division. -/
def getStatusIndicator (nowMs lastMs : Int) : String :=
  let diffMs := nowMs - lastMs
  let diffSeconds := Int.fdiv diffMs 1000
  if diffSeconds < 30 then "🟢"
  else if diffSeconds < 60 then "🟡"
  else "🔴"

/-- `getTimeDifference` of the /report command (src/unnamed/part_000 lines
133-146). -/
def getTimeDifference (nowMs lastMs : Int) : String :=
  let diffMs := nowMs - lastMs
  let diffSeconds := Int.fdiv diffMs 1000
  let diffMinutes := Int.fdiv diffSeconds 60
  let diffHours := Int.fdiv diffMinutes 60
  if 0 < diffHours then
    toString diffHours ++ "h " ++ toString (diffMinutes % 60) ++ "m ago"
  else if 0 < diffMinutes then
    toString diffMinutes ++ "m " ++ toString (diffSeconds % 60) ++ "s ago"
  else
    toString diffSeconds ++ "s ago"

/-- The /status reply text. -/
def statusMessage (isActive : Bool) : String :=
  "📡 **Broadcasting Status**\n\nGM Broadcasting: " ++
    (if isActive then "🟢 Active" else "🔴 Inactive")

/-- Distinct elements in first-occurrence order (`new Set(list)` of JS). -/
def dedupList (l : List String) : List String :=
  l.foldl addSet []

/-- Sender-frequency table of /stats, built in first-occurrence order. -/
def senderCountList (history : List MessageRecord) : List (String × Nat) :=
  history.foldl
    (fun acc record =>
      if acc.any (fun p => p.1 == record.senderAddress) then
        acc.map (fun p => if p.1 == record.senderAddress then (p.1, p.2 + 1) else p)
      else acc ++ [(record.senderAddress, 1)])
    []

/-- The /stats reply text (src/unnamed/part_000 lines 66-105). -/
def statsMessage (isActive : Bool) (messageHistory : List MessageRecord) : String :=
  let totalMessages := messageHistory.length
  let totalSenders := (dedupList (messageHistory.map (fun r => r.senderAddress))).length
  let broadcastStatus := if isActive then "🟢 Active" else "🔴 Inactive"
  let recentMessages := String.intercalate "\n"
    ((messageHistory.drop (messageHistory.length - 5)).map (fun record =>
      "  • " ++ shortenAddress record.senderAddress ++ " at " ++
        dateToLocaleString record.timestamp))
  let topSenders := String.intercalate "\n"
    (((senderCountList messageHistory).mergeSort (fun a b => b.2 ≤ a.2)).take 3 |>.map
      (fun p => "  • " ++ shortenAddress p.1 ++ ": " ++ toString p.2 ++ " messages"))
  "📊 **Message Tracking Stats**\n\n🔢 Total Messages: " ++ toString totalMessages ++
    "\n👥 Unique Wallet Addresses: " ++ toString totalSenders ++
    "\n📡 GM Broadcasting: " ++ broadcastStatus ++
    "\n\n🕐 Recent Messages:\n" ++
    (if recentMessages == "" then "  No messages yet" else recentMessages) ++
    "\n\n🔝 Top Senders:\n" ++
    (if topSenders == "" then "  No senders yet" else topSenders)

/-- The /report reply text (src/unnamed/part_000 lines 108-175), using the
clock value read at the start of the command as `now`. -/
def reportSend (now : Nat) (agentResponses : List AgentResponse) : String :=
  if agentResponses.isEmpty then
    "📋 **Agent Response Report**\n\nNo responses tracked yet."
  else
    let responses := agentResponses.mergeSort
      (fun a b => b.lastResponseTime ≤ a.lastResponseTime)
    let reportLines := String.intercalate "\n"
      (responses.map (fun response =>
        "  " ++ getStatusIndicator (Int.ofNat now) (Int.ofNat response.lastResponseTime) ++
          " " ++ shortenAddress response.senderAddress ++ " - " ++
          getTimeDifference (Int.ofNat now) (Int.ofNat response.lastResponseTime)))
    "📋 **Agent Response Report**\n\n🤖 Agent Status by Wallet Address:\n" ++
      reportLines ++
      "\n\nLegend:\n🟢 Active (< 30s ago)\n🟡 Recent (30s - 1m ago)  \n🔴 Inactive (> 1m ago)" ++
      "\n\nTotal Active Conversations: " ++ toString responses.length

/-- `handleTextMessage` of src/unnamed/part_000 (lines 19-184), the command
dispatcher.  In src/src/index.ts every optional argument is always
supplied, so the truthy branches are taken.  Result: updated state and the
list of texts sent into the conversation, in send order. -/
def handleTextMessage (messageContent : String) (s : BotState) : BotState × List String :=
  let command := strTrim (strToLower messageContent)
  if command == "/start" then
    ({ s with isActive := true },
      ["GM", "🚀 GM broadcasting started! I'll send GM every 30 seconds."])
  else if command == "/stop" then
    ({ s with isActive := false }, ["🛑 GM broadcasting stopped."])
  else if command == "/status" then
    (s, [statusMessage s.isActive])
  else if command == "/stats" then
    (s, [statsMessage s.isActive s.messageHistory])
  else if command == "/report" then
    ({ s with now := s.now + 1 }, [reportSend s.now s.agentResponses])
  else if strContains command "gm" then
    (s, ["GM"])
  else
    (s, [])

/-- One iteration of the per-message loop of `main` (src/src/index.ts lines
156-253): self-filter, address resolution, the excluded-address shortcut,
record/uniqueness tracking, conversation lookup, active-set insertion,
dispatch and response bookkeeping.  Returns the new state and the send
events produced (ingestion-path sends succeed in this model; the
per-message error branch is not exercised). -/
def processMessage (env : Env) (m : InboundMessage) (s : BotState) :
    BotState × List SendEvent :=
  if strToLower m.senderInboxId == strToLower env.agentInboxId then
    (s, [])
  else
    match env.resolveAddress m.senderInboxId with
    | none => (s, [])
    | some senderAddress =>
      if strToLower senderAddress == strToLower SKIP_TRACKING_ADDRESS then
        -- still handle the message but do not track it
        if env.convExists m.conversationId then
          if m.contentTypeId == some "text" then
            let d := handleTextMessage m.content s
            (d.1, d.2.map (fun t => ⟨m.conversationId, t, true⟩))
          else (s, [])
        else (s, [])
      else
        let record : MessageRecord :=
          { senderInboxId := m.senderInboxId
            senderAddress := senderAddress
            timestamp := s.now
            conversationId := m.conversationId
            messageContent := if m.contentTypeId == some "text" then some m.content else none
            contentType :=
              match m.contentTypeId with
              | some t => if t == "" then "unknown" else t
              | none => "unknown" }
        let s1 : BotState :=
          { s with
            messageHistory := s.messageHistory ++ [record]
            uniqueSenders := addSet s.uniqueSenders m.senderInboxId
            uniqueWalletAddresses := addSet s.uniqueWalletAddresses senderAddress
            now := s.now + 1 }
        if env.convExists m.conversationId then
          let s2 : BotState :=
            { s1 with activeConversations := addSet s1.activeConversations m.conversationId }
          if m.contentTypeId == some "text" then
            let d := handleTextMessage m.content s2
            let s4 := updateAgentResponse d.1 m.senderInboxId senderAddress m.conversationId
            (s4, d.2.map (fun t => ⟨m.conversationId, t, true⟩))
          else (s2, [])
        else (s1, [])

/-- Body of the `for (const conversationId of activeConversations)` loop of
the broadcast timer (src/src/index.ts lines 121-148) for one conversation:
conversation lookup, latest-sender scan, excluded-address skip, the two
sends with their try/catch (a failed send removes the conversation from the
active set), and the response-bookkeeping update on success. -/
def processConv (env : Env) (sendOk : String → String → Bool) (c : String) (s : BotState) :
    BotState × List SendEvent :=
  if env.convExists c then
    match (s.messageHistory.filter (fun r => r.conversationId == c)).getLast? with
    | none => (s, [])
    | some latestMessage =>
      if strToLower latestMessage.senderAddress == strToLower SKIP_TRACKING_ADDRESS then
        (s, [])
      else if sendOk c "ping" then
        if sendOk c "GM" then
          (updateAgentResponse s latestMessage.senderInboxId latestMessage.senderAddress c,
            [⟨c, "ping", true⟩, ⟨c, "GM", true⟩])
        else
          ({ s with activeConversations := delSet s.activeConversations c },
            [⟨c, "ping", true⟩, ⟨c, "GM", false⟩])
      else
        ({ s with activeConversations := delSet s.activeConversations c },
          [⟨c, "ping", false⟩])
  else (s, [])

/-- The timer loop over the snapshot of the active set, threading the
state; only the conversation currently being processed is ever deleted, so
iterating the snapshot agrees with live `Set` iteration. -/
def tickLoop (env : Env) (sendOk : String → String → Bool) :
    List String → BotState → BotState × List SendEvent
  | [], s => (s, [])
  | c :: rest, s =>
    let p := processConv env sendOk c s
    let q := tickLoop env sendOk rest p.1
    (q.1, p.2 ++ q.2)

/-- One firing of the `broadcastInterval` callback (src/src/index.ts lines
114-149): a no-op when broadcasting is off, otherwise the loop over the
active conversations. -/
def broadcastTick (env : Env) (sendOk : String → String → Bool) (s : BotState) :
    BotState × List SendEvent :=
  if s.isActive = false then (s, [])
  else tickLoop env sendOk s.activeConversations s

/-- A scheduling event: one inbound stream message, or one timer firing
with that tick's transport outcomes. -/
inductive Event where
  | inbound (m : InboundMessage)
  | tick (sendOk : String → String → Bool)

/-- One event's worth of processing. -/
def step (env : Env) (s : BotState) : Event → BotState × List SendEvent
  | .inbound m => processMessage env m s
  | .tick sendOk => broadcastTick env sendOk s

/-- State after a sequence of events. -/
def runState (env : Env) (s : BotState) : List Event → BotState
  | [] => s
  | e :: es => runState env (step env s e).1 es

/-- Per-event send logs of a sequence of events (aligned with the event
list). -/
def runLog (env : Env) (s : BotState) : List Event → List (List SendEvent)
  | [] => []
  | e :: es => (step env s e).2 :: runLog env (step env s e).1 es

/-- The state set up by `main` before listening (src/src/index.ts lines
70-83): empty collections, `broadcastingControl.isActive` initialised to
`true` (line 73). -/
def initState : BotState :=
  { activeConversations := []
    isActive := true
    messageHistory := []
    uniqueSenders := []
    uniqueWalletAddresses := []
    agentResponses := []
    now := 0 }

/-- Concrete environment used in witness checks: one sender resolving to a
tracked address, every conversation found. -/
def sampleEnv : Env := ⟨"agent", fun _ => some "0xabc", fun _ => true⟩

/-- Concrete environment whose sender resolves to the excluded address. -/
def skipEnv : Env := ⟨"agent", fun _ => some SKIP_TRACKING_ADDRESS, fun _ => true⟩

/-- Concrete environment in which no conversation is ever found. -/
def noConvEnv : Env := ⟨"agent", fun _ => some "0xabc", fun _ => false⟩

/-- Concrete one-conversation state used in witness checks: one tracked
message from "alice" in "conv1", clock past its timestamp. -/
def sampleState : BotState :=
  { activeConversations := ["conv1"]
    isActive := true
    messageHistory := [⟨"alice", "0xabc", 0, "conv1", some "hi", "text"⟩]
    uniqueSenders := ["alice"]
    uniqueWalletAddresses := ["0xabc"]
    agentResponses := []
    now := 1 }

/-- `true` when the log fragment contains a failed send to `c`. -/
def failTo (c : String) (l : List SendEvent) : Bool :=
  l.any (fun e => e.conv == c && !e.ok)

/-- `true` when none of the per-event logs contains a failed send to `c`. -/
def noFailTo (c : String) (logs : List (List SendEvent)) : Bool :=
  logs.all (fun l => !(failTo c l))

/-- An event that ingests a tracked message for conversation `c` whose
conversation lookup succeeds — exactly the events after which the source
reaches `activeConversations.add` (src/src/index.ts line 237). -/
def qualifies (env : Env) (e : Event) (c : String) : Bool :=
  match e with
  | .tick _ => false
  | .inbound m =>
    m.conversationId == c &&
    !(strToLower m.senderInboxId == strToLower env.agentInboxId) &&
    (match env.resolveAddress m.senderInboxId with
     | none => false
     | some a => !(strToLower a == strToLower SKIP_TRACKING_ADDRESS)) &&
    env.convExists m.conversationId

/-- An event that appends a `MessageRecord` for conversation `c` — "a
message has been ingested for `c`" read as the record entering the message
history, with no requirement on the conversation lookup. -/
def ingestsRecord (env : Env) (e : Event) (c : String) : Bool :=
  match e with
  | .tick _ => false
  | .inbound m =>
    m.conversationId == c &&
    !(strToLower m.senderInboxId == strToLower env.agentInboxId) &&
    (match env.resolveAddress m.senderInboxId with
     | none => false
     | some a => !(strToLower a == strToLower SKIP_TRACKING_ADDRESS))

/-- Spec-side reading of the active-set membership condition: some event of
the trace adds `c` (per `add`), and no later event's log contains a failed
broadcast send to `c`.  The log list is the one produced by `runLog` for
the same trace. -/
def addedSince (env : Env) (c : String) : List Event → List (List SendEvent) → Bool
  | e :: es, _ :: ls => (qualifies env e c && noFailTo c ls) || addedSince env c es ls
  | _, _ => false

/-- The same condition with "ingested" read as `ingestsRecord` (the claim's
original wording, with no conversation-lookup requirement). -/
def addedSinceOrig (env : Env) (c : String) : List Event → List (List SendEvent) → Bool
  | e :: es, _ :: ls => (ingestsRecord env e c && noFailTo c ls) || addedSinceOrig env c es ls
  | _, _ => false

/-- Structural invariant of reachable states: at most one response record
per sender inbox id, response times strictly below the clock, every
history record from a tracked (non-excluded) sender, and every active
conversation backed by at least one history record. -/
def ReachInv (s : BotState) : Prop :=
  (s.agentResponses.map (fun r => r.senderInboxId)).Nodup ∧
  (∀ r ∈ s.agentResponses, r.lastResponseTime < s.now) ∧
  (∀ r ∈ s.messageHistory, ¬(strToLower r.senderAddress = strToLower SKIP_TRACKING_ADDRESS)) ∧
  (∀ c ∈ s.activeConversations, ∃ r ∈ s.messageHistory, r.conversationId = c)

instance (s : BotState) : Decidable (ReachInv s) := by
  unfold ReachInv
  infer_instance

/-! ### Basic lemmas about the set and map helpers -/

theorem mem_addSet {l : List String} {x y : String} :
    x ∈ addSet l y ↔ x ∈ l ∨ x = y := by
  unfold addSet
  split
  next hcond =>
    have hy : y ∈ l := List.elem_iff.mp hcond
    exact ⟨Or.inl, fun h => h.elim id (fun e => e ▸ hy)⟩
  next hcond =>
    simp [List.mem_append]

theorem mem_delSet {l : List String} {x y : String} :
    x ∈ delSet l y ↔ x ∈ l ∧ x ≠ y := by
  unfold delSet
  simp [List.mem_filter]

theorem find?_append_of_some {α : Type} {l l' : List α} {p : α → Bool} {a : α}
    (h : l.find? p = some a) : (l ++ l').find? p = some a := by
  rw [List.find?_append, h]
  rfl

theorem find?_append_of_none {α : Type} {l l' : List α} {p : α → Bool}
    (h : l.find? p = none) : (l ++ l').find? p = l'.find? p := by
  rw [List.find?_append, h]
  rfl

theorem find?_map_keep {l : List AgentResponse} {p : AgentResponse → Bool}
    {f : AgentResponse → AgentResponse} {a : AgentResponse}
    (hf : ∀ x, p (f x) = p x) (h : l.find? p = some a) :
    (l.map f).find? p = some (f a) := by
  induction l with
  | nil => simp [List.find?] at h
  | cons b bs ih =>
    simp only [List.map_cons, List.find?_cons, hf b]
    cases hb : p b with
    | true =>
      simp only [List.find?_cons, hb] at h
      cases h
      rfl
    | false =>
      simp only [List.find?_cons, hb] at h
      exact ih h

/-! ### Frame and bookkeeping lemmas for the dispatcher and the response map -/

theorem handleTextMessage_frame (content : String) (s : BotState) :
    (handleTextMessage content s).1.messageHistory = s.messageHistory ∧
    (handleTextMessage content s).1.activeConversations = s.activeConversations ∧
    (handleTextMessage content s).1.uniqueSenders = s.uniqueSenders ∧
    (handleTextMessage content s).1.uniqueWalletAddresses = s.uniqueWalletAddresses ∧
    (handleTextMessage content s).1.agentResponses = s.agentResponses ∧
    s.now ≤ (handleTextMessage content s).1.now := by
  unfold handleTextMessage
  dsimp only
  repeat' split
  all_goals refine ⟨rfl, rfl, rfl, rfl, rfl, ?_⟩
  all_goals dsimp only
  all_goals omega

theorem updateAgentResponse_frame (s : BotState) (id a c : String) :
    (updateAgentResponse s id a c).messageHistory = s.messageHistory ∧
    (updateAgentResponse s id a c).activeConversations = s.activeConversations ∧
    (updateAgentResponse s id a c).uniqueSenders = s.uniqueSenders ∧
    (updateAgentResponse s id a c).uniqueWalletAddresses = s.uniqueWalletAddresses ∧
    (updateAgentResponse s id a c).isActive = s.isActive ∧
    (updateAgentResponse s id a c).now = s.now + 1 := by
  unfold updateAgentResponse
  split
  all_goals exact ⟨rfl, rfl, rfl, rfl, rfl, rfl⟩

/-- After `updateAgentResponse`, the sender's record exists and carries the
clock value that was current at the call. -/
theorem updateAgentResponse_lookup (s : BotState) (id a c : String) :
    ∃ r', (updateAgentResponse s id a c).agentResponses.find?
        (fun r => r.senderInboxId == id) = some r' ∧
      r'.lastResponseTime = s.now := by
  unfold updateAgentResponse
  split
  next r hr =>
    refine ⟨{ r with lastResponseTime := s.now }, ?_, rfl⟩
    dsimp only
    have hp : (r.senderInboxId == id) = true :=
      List.find?_some (p := fun x : AgentResponse => x.senderInboxId == id) hr
    have hfind := find?_map_keep
      (f := fun x => if x.senderInboxId == id then { x with lastResponseTime := s.now } else x)
      (fun x => by by_cases hx : x.senderInboxId = id <;> simp [hx]) hr
    rw [hfind]
    simp [hp]
  next hr =>
    refine ⟨⟨id, a, s.now, c⟩, ?_, rfl⟩
    dsimp only
    rw [find?_append_of_none hr]
    simp [List.find?]

/-- `updateAgentResponse` can only raise a stored `lastResponseTime`: any
record present before the call is still found afterwards, with a time that
is no smaller (given that stored times are below the clock). -/
theorem updateAgentResponse_mono (s : BotState) (id a c : String)
    (hlt : ∀ r ∈ s.agentResponses, r.lastResponseTime < s.now)
    (j : String) (r2 : AgentResponse)
    (hj : s.agentResponses.find? (fun r => r.senderInboxId == j) = some r2) :
    ∃ r2', (updateAgentResponse s id a c).agentResponses.find?
        (fun r => r.senderInboxId == j) = some r2' ∧
      r2.lastResponseTime ≤ r2'.lastResponseTime := by
  have hmem : r2 ∈ s.agentResponses := List.mem_of_find?_eq_some hj
  unfold updateAgentResponse
  split
  next r hr =>
    refine ⟨if r2.senderInboxId == id then { r2 with lastResponseTime := s.now } else r2,
      find?_map_keep
        (f := fun x => if x.senderInboxId == id then { x with lastResponseTime := s.now } else x)
        (fun x => by by_cases hx : x.senderInboxId = id <;> simp [hx]) hj, ?_⟩
    by_cases hx : r2.senderInboxId = id
    · simp only [hx, beq_self_eq_true, if_true]
      exact le_of_lt (hlt r2 hmem)
    · simp [hx]
  next hr =>
    exact ⟨r2, find?_append_of_some hj, le_refl _⟩

/-- `updateAgentResponse` keeps the response keys duplicate-free. -/
theorem updateAgentResponse_nodup (s : BotState) (id a c : String)
    (h : (s.agentResponses.map (fun r => r.senderInboxId)).Nodup) :
    ((updateAgentResponse s id a c).agentResponses.map (fun r => r.senderInboxId)).Nodup := by
  unfold updateAgentResponse
  split
  next r hr =>
    dsimp only
    rw [List.map_map]
    have hkeys : s.agentResponses.map
        ((fun r => r.senderInboxId) ∘
          (fun x => if x.senderInboxId == id then { x with lastResponseTime := s.now } else x))
        = s.agentResponses.map (fun r => r.senderInboxId) := by
      apply List.map_congr_left
      intro x hx
      by_cases hxe : x.senderInboxId = id <;> simp [Function.comp, hxe]
    rw [hkeys]
    exact h
  next hr =>
    dsimp only
    have hid : id ∉ s.agentResponses.map (fun r => r.senderInboxId) := by
      intro hm
      rcases List.mem_map.mp hm with ⟨x, hx, hxe⟩
      have := List.find?_eq_none.mp hr x hx
      simp [hxe] at this
    simp [List.nodup_append, hid, h]

/-- `updateAgentResponse` keeps stored times strictly below the clock. -/
theorem updateAgentResponse_respLt (s : BotState) (id a c : String)
    (h : ∀ r ∈ s.agentResponses, r.lastResponseTime < s.now) :
    ∀ r ∈ (updateAgentResponse s id a c).agentResponses,
      r.lastResponseTime < (updateAgentResponse s id a c).now := by
  have hframe := updateAgentResponse_frame s id a c
  rw [hframe.2.2.2.2.2]
  unfold updateAgentResponse
  split
  all_goals intro r hrm
  next rr hrr =>
    rcases List.mem_map.mp hrm with ⟨x, hx, rfl⟩
    by_cases hxid : x.senderInboxId = id
    · simp [hxid]
    · simp only [hxid, beq_iff_eq, if_neg hxid]
      exact Nat.lt_succ_of_lt (h x hx)
  next hrr =>
    rcases List.mem_append.mp hrm with hx | hx
    · exact Nat.lt_succ_of_lt (h r hx)
    · rcases List.mem_singleton.mp hx with rfl
      exact Nat.lt_succ_self _

/-! ### Lemmas about one broadcast-timer iteration -/

theorem processConv_frame (env : Env) (f : String → String → Bool) (c : String) (s : BotState) :
    (processConv env f c s).1.messageHistory = s.messageHistory ∧
    (processConv env f c s).1.uniqueSenders = s.uniqueSenders ∧
    (processConv env f c s).1.uniqueWalletAddresses = s.uniqueWalletAddresses ∧
    (processConv env f c s).1.isActive = s.isActive ∧
    s.now ≤ (processConv env f c s).1.now := by
  unfold processConv
  repeat' split
  all_goals refine ⟨?_, ?_, ?_, ?_, ?_⟩
  all_goals first
    | rfl
    | (rw [(updateAgentResponse_frame _ _ _ _).1])
    | (rw [(updateAgentResponse_frame _ _ _ _).2.2.1])
    | (rw [(updateAgentResponse_frame _ _ _ _).2.2.2.1])
    | (rw [(updateAgentResponse_frame _ _ _ _).2.2.2.2.1])
    | (rw [(updateAgentResponse_frame _ _ _ _).2.2.2.2.2]; omega)
    | (dsimp only; omega)

theorem processConv_sends (env : Env) (f : String → String → Bool) (c : String) (s : BotState) :
    ∀ e ∈ (processConv env f c s).2, e.conv = c := by
  unfold processConv
  repeat' split
  all_goals intro e he
  all_goals simp at he
  all_goals first
    | (rcases he with rfl | rfl <;> rfl)
    | (rcases he with rfl <;> rfl)
    | cases he

theorem processConv_mem (env : Env) (f : String → String → Bool) (c : String) (s : BotState)
    (x : String) :
    x ∈ (processConv env f c s).1.activeConversations ↔
      x ∈ s.activeConversations ∧ failTo x (processConv env f c s).2 = false := by
  unfold processConv
  repeat' split
  all_goals first
    | (rw [(updateAgentResponse_frame _ _ _ _).2.1]; simp [failTo])
    | (dsimp only; rw [mem_delSet]; by_cases hx : x = c <;> simp [failTo, hx] <;>
        exact fun _ e => hx e.symm)
    | simp [failTo]

theorem failTo_append (x : String) (l l' : List SendEvent) :
    failTo x (l ++ l') = (failTo x l || failTo x l') := by
  simp [failTo, List.any_append]

theorem tickLoop_frame (env : Env) (f : String → String → Bool) :
    ∀ (l : List String) (s : BotState),
      (tickLoop env f l s).1.messageHistory = s.messageHistory ∧
      (tickLoop env f l s).1.uniqueSenders = s.uniqueSenders ∧
      (tickLoop env f l s).1.uniqueWalletAddresses = s.uniqueWalletAddresses ∧
      (tickLoop env f l s).1.isActive = s.isActive ∧
      s.now ≤ (tickLoop env f l s).1.now := by
  intro l
  induction l with
  | nil => intro s; exact ⟨rfl, rfl, rfl, rfl, le_refl _⟩
  | cons c rest ih =>
    intro s
    have hp := processConv_frame env f c s
    have hr := ih (processConv env f c s).1
    unfold tickLoop
    refine ⟨?_, ?_, ?_, ?_, ?_⟩
    · rw [hr.1, hp.1]
    · rw [hr.2.1, hp.2.1]
    · rw [hr.2.2.1, hp.2.2.1]
    · rw [hr.2.2.2.1, hp.2.2.2.1]
    · exact le_trans hp.2.2.2.2 hr.2.2.2.2

theorem tickLoop_sends (env : Env) (f : String → String → Bool) :
    ∀ (l : List String) (s : BotState) (e : SendEvent),
      e ∈ (tickLoop env f l s).2 → e.conv ∈ l := by
  intro l
  induction l with
  | nil => intro s e he; simp [tickLoop] at he
  | cons c rest ih =>
    intro s e he
    unfold tickLoop at he
    rcases List.mem_append.mp he with h1 | h2
    · rw [processConv_sends env f c s e h1]
      exact List.mem_cons_self c rest
    · exact List.mem_cons_of_mem c (ih _ e h2)

theorem tickLoop_mem (env : Env) (f : String → String → Bool) :
    ∀ (l : List String) (s : BotState) (x : String),
      x ∈ (tickLoop env f l s).1.activeConversations ↔
        x ∈ s.activeConversations ∧ failTo x (tickLoop env f l s).2 = false := by
  intro l
  induction l with
  | nil => intro s x; simp [tickLoop, failTo]
  | cons c rest ih =>
    intro s x
    unfold tickLoop
    rw [ih (processConv env f c s).1 x, processConv_mem env f c s x, failTo_append]
    constructor
    · rintro ⟨⟨hm, hf1⟩, hf2⟩
      exact ⟨hm, by simp [hf1, hf2]⟩
    · rintro ⟨hm, hf⟩
      rcases Bool.or_eq_false_iff.mp hf with ⟨hf1, hf2⟩
      exact ⟨⟨hm, hf1⟩, hf2⟩

theorem processConv_inv (env : Env) (f : String → String → Bool) (c : String) (s : BotState)
    (h : ReachInv s) : ReachInv (processConv env f c s).1 := by
  obtain ⟨h1, h2, h3, h4⟩ := h
  unfold processConv
  repeat' split
  all_goals first
    | exact ⟨h1, h2, h3, h4⟩
    | exact ⟨h1, h2, h3, fun x hx => h4 x (mem_delSet.mp hx).1⟩
    | (refine ⟨updateAgentResponse_nodup _ _ _ _ h1,
        updateAgentResponse_respLt _ _ _ _ h2, ?_, ?_⟩
       · rw [(updateAgentResponse_frame _ _ _ _).1]; exact h3
       · intro x hx
         rw [(updateAgentResponse_frame _ _ _ _).2.1] at hx
         rw [(updateAgentResponse_frame _ _ _ _).1]
         exact h4 x hx)

theorem tickLoop_inv (env : Env) (f : String → String → Bool) :
    ∀ (l : List String) (s : BotState), ReachInv s → ReachInv (tickLoop env f l s).1 := by
  intro l
  induction l with
  | nil => intro s h; exact h
  | cons c rest ih =>
    intro s h
    exact ih _ (processConv_inv env f c s h)

theorem broadcastTick_mem (env : Env) (f : String → String → Bool) (s : BotState) (x : String) :
    x ∈ (broadcastTick env f s).1.activeConversations ↔
      x ∈ s.activeConversations ∧ failTo x (broadcastTick env f s).2 = false := by
  unfold broadcastTick
  split
  · simp [failTo]
  · exact tickLoop_mem env f s.activeConversations s x

theorem broadcastTick_inv (env : Env) (f : String → String → Bool) (s : BotState)
    (h : ReachInv s) : ReachInv (broadcastTick env f s).1 := by
  unfold broadcastTick
  split
  · exact h
  · exact tickLoop_inv env f s.activeConversations s h

/-! ### Lemmas about one ingestion-loop iteration -/

/-- Self-messages are dropped with no effect (src/src/index.ts lines 158-161). -/
theorem processMessage_self (env : Env) (m : InboundMessage) (s : BotState)
    (h : (strToLower m.senderInboxId == strToLower env.agentInboxId) = true) :
    processMessage env m s = (s, []) := by
  unfold processMessage
  simp [h]

/-- Messages whose sender address cannot be resolved are dropped with no
effect (src/src/index.ts lines 164-169). -/
theorem processMessage_noAddress (env : Env) (m : InboundMessage) (s : BotState)
    (hself : (strToLower m.senderInboxId == strToLower env.agentInboxId) = false)
    (h : env.resolveAddress m.senderInboxId = none) :
    processMessage env m s = (s, []) := by
  unfold processMessage
  simp [hself, h]

/-- Excluded-address path (src/src/index.ts lines 171-191): the message is
still dispatched when it is text and its conversation is found, and nothing
else happens. -/
theorem processMessage_skip (env : Env) (m : InboundMessage) (s : BotState) (a : String)
    (hself : (strToLower m.senderInboxId == strToLower env.agentInboxId) = false)
    (hres : env.resolveAddress m.senderInboxId = some a)
    (hskip : (strToLower a == strToLower SKIP_TRACKING_ADDRESS) = true) :
    processMessage env m s =
      if env.convExists m.conversationId then
        if m.contentTypeId == some "text" then
          ((handleTextMessage m.content s).1,
            (handleTextMessage m.content s).2.map (fun t => ⟨m.conversationId, t, true⟩))
        else (s, [])
      else (s, []) := by
  unfold processMessage
  simp [hself, hres, hskip]

/-- Tracked text path (src/src/index.ts lines 196-253): record appended,
uniqueness sets extended, conversation activated, dispatcher invoked, then
the response bookkeeping update. -/
theorem processMessage_track_text (env : Env) (m : InboundMessage) (s : BotState) (a : String)
    (hself : (strToLower m.senderInboxId == strToLower env.agentInboxId) = false)
    (hres : env.resolveAddress m.senderInboxId = some a)
    (hskip : (strToLower a == strToLower SKIP_TRACKING_ADDRESS) = false)
    (hconv : env.convExists m.conversationId = true)
    (htext : m.contentTypeId = some "text") :
    processMessage env m s =
      (updateAgentResponse
          (handleTextMessage m.content
            { s with
              messageHistory := s.messageHistory ++
                [⟨m.senderInboxId, a, s.now, m.conversationId, some m.content, "text"⟩]
              uniqueSenders := addSet s.uniqueSenders m.senderInboxId
              uniqueWalletAddresses := addSet s.uniqueWalletAddresses a
              activeConversations := addSet s.activeConversations m.conversationId
              now := s.now + 1 }).1
          m.senderInboxId a m.conversationId,
        (handleTextMessage m.content
            { s with
              messageHistory := s.messageHistory ++
                [⟨m.senderInboxId, a, s.now, m.conversationId, some m.content, "text"⟩]
              uniqueSenders := addSet s.uniqueSenders m.senderInboxId
              uniqueWalletAddresses := addSet s.uniqueWalletAddresses a
              activeConversations := addSet s.activeConversations m.conversationId
              now := s.now + 1 }).2.map (fun t => ⟨m.conversationId, t, true⟩)) := by
  unfold processMessage
  simp [hself, hres, hskip, hconv, htext]

/-- Tracked non-text path: record appended, sets extended, conversation
activated, nothing else. -/
theorem processMessage_track_nontext (env : Env) (m : InboundMessage) (s : BotState) (a : String)
    (hself : (strToLower m.senderInboxId == strToLower env.agentInboxId) = false)
    (hres : env.resolveAddress m.senderInboxId = some a)
    (hskip : (strToLower a == strToLower SKIP_TRACKING_ADDRESS) = false)
    (hconv : env.convExists m.conversationId = true)
    (htext : (m.contentTypeId == some "text") = false) :
    processMessage env m s =
      ({ s with
          messageHistory := s.messageHistory ++
            [⟨m.senderInboxId, a, s.now, m.conversationId, none,
              match m.contentTypeId with
              | some t => if t == "" then "unknown" else t
              | none => "unknown"⟩]
          uniqueSenders := addSet s.uniqueSenders m.senderInboxId
          uniqueWalletAddresses := addSet s.uniqueWalletAddresses a
          activeConversations := addSet s.activeConversations m.conversationId
          now := s.now + 1 }, []) := by
  unfold processMessage
  simp [hself, hres, hskip, hconv, htext]

/-- Tracked path with failing conversation lookup (src/src/index.ts lines
227-234): the record and uniqueness sets are still updated, but the active
set is not and no dispatch happens. -/
theorem processMessage_track_noconv (env : Env) (m : InboundMessage) (s : BotState) (a : String)
    (hself : (strToLower m.senderInboxId == strToLower env.agentInboxId) = false)
    (hres : env.resolveAddress m.senderInboxId = some a)
    (hskip : (strToLower a == strToLower SKIP_TRACKING_ADDRESS) = false)
    (hconv : env.convExists m.conversationId = false) :
    processMessage env m s =
      ({ s with
          messageHistory := s.messageHistory ++
            [⟨m.senderInboxId, a, s.now, m.conversationId,
              (if m.contentTypeId == some "text" then some m.content else none),
              match m.contentTypeId with
              | some t => if t == "" then "unknown" else t
              | none => "unknown"⟩]
          uniqueSenders := addSet s.uniqueSenders m.senderInboxId
          uniqueWalletAddresses := addSet s.uniqueWalletAddresses a
          now := s.now + 1 }, []) := by
  unfold processMessage
  simp [hself, hres, hskip, hconv]

/-- Every ingestion-path send is accepted in this model. -/
theorem processMessage_ok (env : Env) (m : InboundMessage) (s : BotState) :
    ∀ e ∈ (processMessage env m s).2, e.ok = true := by
  by_cases hself : (strToLower m.senderInboxId == strToLower env.agentInboxId) = true
  · rw [processMessage_self env m s hself]; intro e he; cases he
  · rw [Bool.not_eq_true] at hself
    cases hres : env.resolveAddress m.senderInboxId with
    | none => rw [processMessage_noAddress env m s hself hres]; intro e he; cases he
    | some a =>
      by_cases hskip : (strToLower a == strToLower SKIP_TRACKING_ADDRESS) = true
      · rw [processMessage_skip env m s a hself hres hskip]
        split
        · split
          · intro e he
            rcases List.mem_map.mp he with ⟨t, _, rfl⟩
            rfl
          · intro e he; cases he
        · intro e he; cases he
      · rw [Bool.not_eq_true] at hskip
        by_cases hconv : env.convExists m.conversationId = true
        · by_cases htext : m.contentTypeId = some "text"
          · rw [processMessage_track_text env m s a hself hres hskip hconv htext]
            intro e he
            rcases List.mem_map.mp he with ⟨t, _, rfl⟩
            rfl
          · have htext' : (m.contentTypeId == some "text") = false := by
              simp [htext]
            rw [processMessage_track_nontext env m s a hself hres hskip hconv htext']
            intro e he; cases he
        · rw [Bool.not_eq_true] at hconv
          rw [processMessage_track_noconv env m s a hself hres hskip hconv]
          intro e he; cases he

/-- A conversation is in the active set after one ingestion step iff it was
already there or the step qualifies for it. -/
theorem processMessage_mem (env : Env) (m : InboundMessage) (s : BotState) (x : String) :
    x ∈ (processMessage env m s).1.activeConversations ↔
      x ∈ s.activeConversations ∨ qualifies env (.inbound m) x = true := by
  by_cases hself : (strToLower m.senderInboxId == strToLower env.agentInboxId) = true
  · rw [processMessage_self env m s hself]
    simp [qualifies, hself]
  · rw [Bool.not_eq_true] at hself
    cases hres : env.resolveAddress m.senderInboxId with
    | none =>
      rw [processMessage_noAddress env m s hself hres]
      simp [qualifies, hself, hres]
    | some a =>
      by_cases hskip : (strToLower a == strToLower SKIP_TRACKING_ADDRESS) = true
      · rw [processMessage_skip env m s a hself hres hskip]
        have hq : qualifies env (.inbound m) x = false := by
          simp [qualifies, hself, hres, hskip]
        split
        · split
          · rw [(handleTextMessage_frame m.content s).2.1]
            simp [hq]
          · simp [hq]
        · simp [hq]
      · rw [Bool.not_eq_true] at hskip
        by_cases hconv : env.convExists m.conversationId = true
        · have hq : qualifies env (.inbound m) x = ((m.conversationId == x) : Bool) := by
            simp [qualifies, hself, hres, hskip, hconv]
          by_cases htext : m.contentTypeId = some "text"
          · rw [processMessage_track_text env m s a hself hres hskip hconv htext]
            rw [(updateAgentResponse_frame _ _ _ _).2.1]
            rw [(handleTextMessage_frame _ _).2.1]
            dsimp only
            rw [mem_addSet, hq]
            exact or_congr Iff.rfl ⟨fun h => beq_iff_eq.mpr h.symm, fun h => (beq_iff_eq.mp h).symm⟩
          · have htext' : (m.contentTypeId == some "text") = false := by simp [htext]
            rw [processMessage_track_nontext env m s a hself hres hskip hconv htext']
            dsimp only
            rw [mem_addSet, hq]
            exact or_congr Iff.rfl ⟨fun h => beq_iff_eq.mpr h.symm, fun h => (beq_iff_eq.mp h).symm⟩
        · rw [Bool.not_eq_true] at hconv
          rw [processMessage_track_noconv env m s a hself hres hskip hconv]
          simp [qualifies, hself, hres, hskip, hconv]

/-- One ingestion step preserves the structural invariant. -/
theorem processMessage_inv (env : Env) (m : InboundMessage) (s : BotState)
    (h : ReachInv s) : ReachInv (processMessage env m s).1 := by
  obtain ⟨h1, h2, h3, h4⟩ := h
  by_cases hself : (strToLower m.senderInboxId == strToLower env.agentInboxId) = true
  · rw [processMessage_self env m s hself]; exact ⟨h1, h2, h3, h4⟩
  · rw [Bool.not_eq_true] at hself
    cases hres : env.resolveAddress m.senderInboxId with
    | none => rw [processMessage_noAddress env m s hself hres]; exact ⟨h1, h2, h3, h4⟩
    | some a =>
      by_cases hskip : (strToLower a == strToLower SKIP_TRACKING_ADDRESS) = true
      · rw [processMessage_skip env m s a hself hres hskip]
        have hf := handleTextMessage_frame m.content s
        split
        · split
          · exact ⟨hf.2.2.2.2.1 ▸ h1,
              fun r hr => lt_of_lt_of_le (h2 r (hf.2.2.2.2.1 ▸ hr)) hf.2.2.2.2.2,
              hf.1 ▸ h3,
              fun c hc => hf.1 ▸ h4 c (hf.2.1 ▸ hc)⟩
          · exact ⟨h1, h2, h3, h4⟩
        · exact ⟨h1, h2, h3, h4⟩
      · rw [Bool.not_eq_true] at hskip
        have hskipne : ¬(strToLower a = strToLower SKIP_TRACKING_ADDRESS) := by
          intro e
          have he := beq_iff_eq.mpr e
          rw [hskip] at he
          cases he
        by_cases hconv : env.convExists m.conversationId = true
        · by_cases htext : m.contentTypeId = some "text"
          · rw [processMessage_track_text env m s a hself hres hskip hconv htext]
            set rec0 : MessageRecord :=
              ⟨m.senderInboxId, a, s.now, m.conversationId, some m.content, "text"⟩ with hrec
            set s2 : BotState :=
              { s with
                messageHistory := s.messageHistory ++ [rec0]
                uniqueSenders := addSet s.uniqueSenders m.senderInboxId
                uniqueWalletAddresses := addSet s.uniqueWalletAddresses a
                activeConversations := addSet s.activeConversations m.conversationId
                now := s.now + 1 } with hs2
            have hf := handleTextMessage_frame m.content s2
            have hd1 : (handleTextMessage m.content s2).1.agentResponses = s.agentResponses :=
              hf.2.2.2.2.1
            have hdh : (handleTextMessage m.content s2).1.messageHistory =
                s.messageHistory ++ [rec0] := hf.1
            have hda : (handleTextMessage m.content s2).1.activeConversations =
                addSet s.activeConversations m.conversationId := hf.2.1
            have hdn : s.now + 1 ≤ (handleTextMessage m.content s2).1.now := hf.2.2.2.2.2
            refine ⟨updateAgentResponse_nodup _ _ _ _ (hd1 ▸ h1),
              updateAgentResponse_respLt _ _ _ _
                (fun r hr => lt_of_lt_of_le
                  (Nat.lt_succ_of_lt (h2 r (hd1 ▸ hr))) hdn), ?_, ?_⟩
            · rw [(updateAgentResponse_frame _ _ _ _).1, hdh]
              intro r hr
              rcases List.mem_append.mp hr with hr | hr
              · exact h3 r hr
              · rcases List.mem_singleton.mp hr with rfl
                exact hskipne
            · intro c hc
              rw [(updateAgentResponse_frame _ _ _ _).2.1, hda] at hc
              rw [(updateAgentResponse_frame _ _ _ _).1, hdh]
              rcases mem_addSet.mp hc with hc | rfl
              · rcases h4 c hc with ⟨r, hrm, hrc⟩
                exact ⟨r, List.mem_append_left _ hrm, hrc⟩
              · exact ⟨rec0, List.mem_append_right _ (List.mem_singleton_self _), rfl⟩
          · have htext' : (m.contentTypeId == some "text") = false := by simp [htext]
            rw [processMessage_track_nontext env m s a hself hres hskip hconv htext']
            refine ⟨h1, fun r hr => Nat.lt_succ_of_lt (h2 r hr), ?_, ?_⟩
            · intro r hr
              rcases List.mem_append.mp hr with hr | hr
              · exact h3 r hr
              · rcases List.mem_singleton.mp hr with rfl
                exact hskipne
            · intro c hc
              rcases mem_addSet.mp hc with hc | rfl
              · rcases h4 c hc with ⟨r, hrm, hrc⟩
                exact ⟨r, List.mem_append_left _ hrm, hrc⟩
              · exact ⟨_, List.mem_append_right _ (List.mem_singleton_self _), rfl⟩
        · rw [Bool.not_eq_true] at hconv
          rw [processMessage_track_noconv env m s a hself hres hskip hconv]
          refine ⟨h1, fun r hr => Nat.lt_succ_of_lt (h2 r hr), ?_, ?_⟩
          · intro r hr
            rcases List.mem_append.mp hr with hr | hr
            · exact h3 r hr
            · rcases List.mem_singleton.mp hr with rfl
              exact hskipne
          · intro c hc
            rcases h4 c hc with ⟨r, hrm, hrc⟩
            exact ⟨r, List.mem_append_left _ hrm, hrc⟩

/-! ### Event-level and trace-level lemmas -/

theorem failTo_of_ok {x : String} {l : List SendEvent}
    (h : ∀ e ∈ l, e.ok = true) : failTo x l = false := by
  unfold failTo
  rw [List.any_eq_false]
  intro e he
  simp [h e he]

theorem step_inv (env : Env) (s : BotState) (e : Event)
    (h : ReachInv s) : ReachInv (step env s e).1 := by
  cases e with
  | inbound m => exact processMessage_inv env m s h
  | tick f => exact broadcastTick_inv env f s h

theorem step_mem (env : Env) (s : BotState) (e : Event) (c : String) :
    c ∈ (step env s e).1.activeConversations ↔
      (c ∈ s.activeConversations ∧ failTo c (step env s e).2 = false) ∨
        qualifies env e c = true := by
  cases e with
  | inbound m =>
    have hok := processMessage_ok env m s
    rw [show step env s (.inbound m) = processMessage env m s from rfl]
    rw [processMessage_mem env m s c, failTo_of_ok hok]
    simp
  | tick f =>
    rw [show step env s (.tick f) = broadcastTick env f s from rfl]
    rw [broadcastTick_mem env f s c]
    simp [qualifies]

theorem run_inv (env : Env) :
    ∀ (tr : List Event) (s : BotState), ReachInv s → ReachInv (runState env s tr) := by
  intro tr
  induction tr with
  | nil => intro s h; exact h
  | cons e es ih => intro s h; exact ih _ (step_inv env s e h)

theorem initState_inv : ReachInv initState := by
  refine ⟨List.nodup_nil, ?_, ?_, ?_⟩ <;> intro r hr <;> cases hr

/-- Master lemma relating final active-set membership to the observable
history: starting from any state, `c` ends up active iff it was active and
never saw a failed broadcast send, or some qualifying ingest added it and
no later event's log contains a failed send to it. -/
theorem runState_active_iff (env : Env) (c : String) :
    ∀ (tr : List Event) (s : BotState),
      c ∈ (runState env s tr).activeConversations ↔
        ((c ∈ s.activeConversations ∧ noFailTo c (runLog env s tr) = true) ∨
          addedSince env c tr (runLog env s tr) = true) := by
  intro tr
  induction tr with
  | nil =>
    intro s
    simp [runState, runLog, noFailTo, addedSince]
  | cons e es ih =>
    intro s
    have hstep := step_mem env s e c
    have hcons : runLog env s (e :: es) =
        (step env s e).2 :: runLog env (step env s e).1 es := rfl
    have hrun : runState env s (e :: es) = runState env (step env s e).1 es := rfl
    rw [hrun, hcons, ih (step env s e).1]
    rw [show addedSince env c (e :: es)
        ((step env s e).2 :: runLog env (step env s e).1 es) =
        ((qualifies env e c && noFailTo c (runLog env (step env s e).1 es)) ||
          addedSince env c es (runLog env (step env s e).1 es)) from rfl]
    rw [hstep]
    simp only [noFailTo, List.all_cons, Bool.and_eq_true, Bool.or_eq_true,
      Bool.not_eq_true']
    tauto

/-! ### Targeted broadcast-loop lemmas -/

/-- When the loop reaches conversation `c` and both sends succeed, both
send events appear in the tick's log. -/
theorem tickLoop_send_success (env : Env) (f : String → String → Bool) (c : String)
    (latest : MessageRecord) :
    ∀ (l : List String) (s : BotState), c ∈ l → env.convExists c = true →
      (s.messageHistory.filter (fun r => r.conversationId == c)).getLast? = some latest →
      (strToLower latest.senderAddress == strToLower SKIP_TRACKING_ADDRESS) = false →
      f c "ping" = true → f c "GM" = true →
      (⟨c, "ping", true⟩ : SendEvent) ∈ (tickLoop env f l s).2 ∧
        (⟨c, "GM", true⟩ : SendEvent) ∈ (tickLoop env f l s).2 := by
  intro l
  induction l with
  | nil => intro s hc; cases hc
  | cons d rest ih =>
    intro s hc hconv hlast hskip hping hgm
    rcases List.mem_cons.mp hc with rfl | hc
    · have hpc : processConv env f c s =
          (updateAgentResponse s latest.senderInboxId latest.senderAddress c,
            [⟨c, "ping", true⟩, ⟨c, "GM", true⟩]) := by
        unfold processConv
        rw [hconv, hlast]
        simp [hskip, hping, hgm]
      unfold tickLoop
      rw [hpc]
      constructor
      · exact List.mem_append_left _ (by simp)
      · exact List.mem_append_left _ (by simp)
    · unfold tickLoop
      have hl := (processConv_frame env f d s).1
      have hrec := ih (processConv env f d s).1 hc hconv (hl ▸ hlast) hskip hping hgm
      exact ⟨List.mem_append_right _ hrec.1, List.mem_append_right _ hrec.2⟩

/-- When the loop reaches conversation `c` and the first send fails, the
failed send event appears in the tick's log. -/
theorem tickLoop_send_fail (env : Env) (f : String → String → Bool) (c : String)
    (latest : MessageRecord) :
    ∀ (l : List String) (s : BotState), c ∈ l → env.convExists c = true →
      (s.messageHistory.filter (fun r => r.conversationId == c)).getLast? = some latest →
      (strToLower latest.senderAddress == strToLower SKIP_TRACKING_ADDRESS) = false →
      f c "ping" = false →
      (⟨c, "ping", false⟩ : SendEvent) ∈ (tickLoop env f l s).2 := by
  intro l
  induction l with
  | nil => intro s hc; cases hc
  | cons d rest ih =>
    intro s hc hconv hlast hskip hping
    rcases List.mem_cons.mp hc with rfl | hc
    · have hpc : processConv env f c s =
          ({ s with activeConversations := delSet s.activeConversations c },
            [⟨c, "ping", false⟩]) := by
        unfold processConv
        rw [hconv, hlast]
        simp [hskip, hping]
      unfold tickLoop
      rw [hpc]
      exact List.mem_append_left _ (by simp)
    · unfold tickLoop
      have hl := (processConv_frame env f d s).1
      exact List.mem_append_right _ (ih (processConv env f d s).1 hc hconv (hl ▸ hlast) hskip hping)

/-- When the loop reaches conversation `c` and either send fails, the
tick's log contains a failed send to `c`. -/
theorem tickLoop_fail_any (env : Env) (f : String → String → Bool) (c : String)
    (latest : MessageRecord) :
    ∀ (l : List String) (s : BotState), c ∈ l → env.convExists c = true →
      (s.messageHistory.filter (fun r => r.conversationId == c)).getLast? = some latest →
      (strToLower latest.senderAddress == strToLower SKIP_TRACKING_ADDRESS) = false →
      (f c "ping" = false ∨ f c "GM" = false) →
      failTo c (tickLoop env f l s).2 = true := by
  intro l
  induction l with
  | nil => intro s hc; cases hc
  | cons d rest ih =>
    intro s hc hconv hlast hskip hfail
    rcases List.mem_cons.mp hc with rfl | hc
    · unfold tickLoop
      rw [failTo_append]
      rw [Bool.or_eq_true]
      refine Or.inl ?_
      rcases hfail with hf | hf
      · have hpc : (processConv env f c s).2 = [⟨c, "ping", false⟩] := by
          unfold processConv
          rw [hconv, hlast]
          simp [hskip, hf]
        rw [hpc]
        simp [failTo]
      · cases hping : f c "ping"
        · have hpc : (processConv env f c s).2 = [⟨c, "ping", false⟩] := by
            unfold processConv
            rw [hconv, hlast]
            simp [hskip, hping]
          rw [hpc]
          simp [failTo]
        · have hpc : (processConv env f c s).2 = [⟨c, "ping", true⟩, ⟨c, "GM", false⟩] := by
            unfold processConv
            rw [hconv, hlast]
            simp [hskip, hping, hf]
          rw [hpc]
          simp [failTo]
    · unfold tickLoop
      rw [failTo_append]
      rw [Bool.or_eq_true]
      refine Or.inr ?_
      have hl := (processConv_frame env f d s).1
      exact ih (processConv env f d s).1 hc hconv (hl ▸ hlast) hskip hfail

/-- Response-record persistence through the remainder of a tick: a record
present before the loop survives, and its time never decreases. -/
theorem processConv_resp_mono (env : Env) (f : String → String → Bool) (d : String)
    (s : BotState) (key : String) (r : AgentResponse)
    (h : ReachInv s)
    (hj : s.agentResponses.find? (fun x => x.senderInboxId == key) = some r) :
    ∃ r', (processConv env f d s).1.agentResponses.find?
        (fun x => x.senderInboxId == key) = some r' ∧
      r.lastResponseTime ≤ r'.lastResponseTime := by
  unfold processConv
  repeat' split
  all_goals first
    | exact ⟨r, hj, le_refl _⟩
    | exact updateAgentResponse_mono s _ _ _ h.2.1 key r hj

theorem tickLoop_resp_mono (env : Env) (f : String → String → Bool) (key : String) :
    ∀ (l : List String) (s : BotState) (r : AgentResponse), ReachInv s →
      s.agentResponses.find? (fun x => x.senderInboxId == key) = some r →
      ∃ r', (tickLoop env f l s).1.agentResponses.find?
          (fun x => x.senderInboxId == key) = some r' ∧
        r.lastResponseTime ≤ r'.lastResponseTime := by
  intro l
  induction l with
  | nil => intro s r _ hj; exact ⟨r, hj, le_refl _⟩
  | cons d rest ih =>
    intro s r h hj
    rcases processConv_resp_mono env f d s key r h hj with ⟨r1, hr1, hle1⟩
    rcases ih (processConv env f d s).1 r1 (processConv_inv env f d s h) hr1 with ⟨r2, hr2, hle2⟩
    exact ⟨r2, hr2, le_trans hle1 hle2⟩

/-- When the loop reaches conversation `c` and both sends succeed, the
latest sender's response record exists afterwards with a time that is at
least the clock at the start of the loop. -/
theorem tickLoop_updates (env : Env) (f : String → String → Bool) (c : String)
    (latest : MessageRecord) :
    ∀ (l : List String) (s : BotState), ReachInv s → c ∈ l → env.convExists c = true →
      (s.messageHistory.filter (fun r => r.conversationId == c)).getLast? = some latest →
      (strToLower latest.senderAddress == strToLower SKIP_TRACKING_ADDRESS) = false →
      f c "ping" = true → f c "GM" = true →
      ∃ r', (tickLoop env f l s).1.agentResponses.find?
          (fun x => x.senderInboxId == latest.senderInboxId) = some r' ∧
        s.now ≤ r'.lastResponseTime := by
  intro l
  induction l with
  | nil => intro s _ hc; cases hc
  | cons d rest ih =>
    intro s hinv hc hconv hlast hskip hping hgm
    rcases List.mem_cons.mp hc with rfl | hc
    · have hpc : processConv env f c s =
          (updateAgentResponse s latest.senderInboxId latest.senderAddress c,
            [⟨c, "ping", true⟩, ⟨c, "GM", true⟩]) := by
        unfold processConv
        rw [hconv, hlast]
        simp [hskip, hping, hgm]
      unfold tickLoop
      rw [hpc]
      rcases updateAgentResponse_lookup s latest.senderInboxId latest.senderAddress c
        with ⟨r0, hr0, ht0⟩
      have hinv' : ReachInv (updateAgentResponse s latest.senderInboxId latest.senderAddress c) := by
        have := processConv_inv env f c s hinv
        rwa [hpc] at this
      rcases tickLoop_resp_mono env f latest.senderInboxId rest _ r0 hinv' hr0
        with ⟨r', hr', hle⟩
      exact ⟨r', hr', ht0 ▸ hle⟩
    · unfold tickLoop
      have hfr := processConv_frame env f d s
      rcases ih (processConv env f d s).1 (processConv_inv env f d s hinv) hc hconv
        (hfr.1 ▸ hlast) hskip hping hgm with ⟨r', hr', hle⟩
      exact ⟨r', hr', le_trans hfr.2.2.2.2 hle⟩

/-- A conversation whose latest tracked message is from the excluded
address is never sent to by the loop, and never removed from the active
set. -/
theorem tickLoop_skipconv (env : Env) (f : String → String → Bool) (c : String)
    (latest : MessageRecord) :
    ∀ (l : List String) (s : BotState),
      (s.messageHistory.filter (fun r => r.conversationId == c)).getLast? = some latest →
      (strToLower latest.senderAddress == strToLower SKIP_TRACKING_ADDRESS) = true →
      (∀ e ∈ (tickLoop env f l s).2, e.conv ≠ c) ∧
        (c ∈ s.activeConversations → c ∈ (tickLoop env f l s).1.activeConversations) := by
  intro l
  induction l with
  | nil => intro s _ _; exact ⟨fun e he => absurd he (by simp [tickLoop]), fun h => h⟩
  | cons d rest ih =>
    intro s hlast hskip
    by_cases hdc : d = c
    · subst hdc
      have hpc : processConv env f d s = (s, []) := by
        unfold processConv
        split
        · rw [hlast]
          simp [hskip]
        · rfl
      unfold tickLoop
      rw [hpc]
      rcases ih s hlast hskip with ⟨ih1, ih2⟩
      exact ⟨fun e he => ih1 e (by simpa using he), ih2⟩
    · unfold tickLoop
      have hfr := processConv_frame env f d s
      rcases ih (processConv env f d s).1 (hfr.1 ▸ hlast) hskip with ⟨ih1, ih2⟩
      refine ⟨?_, ?_⟩
      · intro e he
        rcases List.mem_append.mp he with h1 | h2
        · rw [processConv_sends env f d s e h1]; exact hdc
        · exact ih1 e h2
      · intro hcm
        apply ih2
        rw [processConv_mem]
        refine ⟨hcm, ?_⟩
        unfold failTo
        rw [List.any_eq_false]
        intro e he
        rw [processConv_sends env f d s e he]
        simp [beq_iff_eq, hdc]

/-! ### Claim theorems -/

/-- C5: in the /report command, a record whose elapsed time is 29 seconds
is classified "active" (🟢), one from 30 up to but excluding 60 seconds is
classified "recent" (🟡), and one at 60 seconds or more is classified
"inactive" (🔴); classification is determined by
`Math.floor(elapsedMs / 1000)` being `< 30`, `< 60`, else. -/
theorem c5_report_classification (nowMs lastMs : Int) (h : lastMs ≤ nowMs) :
    (getStatusIndicator nowMs lastMs = "🟢" ↔ (nowMs - lastMs).fdiv 1000 < 30) ∧
    (getStatusIndicator nowMs lastMs = "🟡" ↔
      30 ≤ (nowMs - lastMs).fdiv 1000 ∧ (nowMs - lastMs).fdiv 1000 < 60) ∧
    (getStatusIndicator nowMs lastMs = "🔴" ↔ 60 ≤ (nowMs - lastMs).fdiv 1000) ∧
    (nowMs - lastMs = 29000 → getStatusIndicator nowMs lastMs = "🟢") ∧
    (nowMs - lastMs = 60000 → getStatusIndicator nowMs lastMs = "🔴") := by
  by_cases h1 : (nowMs - lastMs).fdiv 1000 < 30
  · rw [show getStatusIndicator nowMs lastMs = "🟢" from by simp [getStatusIndicator, h1]]
    refine ⟨by simp [h1], ⟨fun he => absurd he (by decide), fun hx => absurd h1 (by omega)⟩,
      ⟨fun he => absurd he (by decide), fun hx => absurd h1 (by omega)⟩,
      fun _ => rfl, fun hk => ?_⟩
    rw [hk] at h1
    exact absurd h1 (by decide)
  · by_cases h2 : (nowMs - lastMs).fdiv 1000 < 60
    · rw [show getStatusIndicator nowMs lastMs = "🟡" from by
        simp [getStatusIndicator, h1, h2]]
      refine ⟨⟨fun he => absurd he (by decide), fun hx => absurd hx h1⟩,
        by simp [h1, h2]; omega,
        ⟨fun he => absurd he (by decide), fun hx => absurd hx (by omega)⟩,
        fun hk => ?_, fun hk => ?_⟩
      · rw [hk] at h1
        exact absurd (by decide : Int.fdiv 29000 1000 < 30) h1
      · rw [hk] at h2
        exact absurd h2 (by decide)
    · rw [show getStatusIndicator nowMs lastMs = "🔴" from by
        simp [getStatusIndicator, h1, h2]]
      refine ⟨⟨fun he => absurd he (by decide), fun hx => absurd hx h1⟩,
        ⟨fun he => absurd he (by decide), fun hx => absurd hx.2 h2⟩,
        by simp; omega,
        fun hk => ?_, fun _ => rfl⟩
      rw [hk] at h1
      exact absurd (by decide : Int.fdiv 29000 1000 < 30) h1

/-- Witness for C5 at elapsed 29000 ms. -/
theorem c5_report_classification_witness : getStatusIndicator 29000 0 = "🟢" :=
  (c5_report_classification 29000 0 (by decide)).2.2.2.1 (by decide)

/-- C6: dispatching /start and then immediately /stop leaves the
broadcasting flag false, and exactly one greeting "GM" is sent, before the
stop confirmation message. -/
theorem c6_start_then_stop (s : BotState) :
    ((handleTextMessage "/stop" (handleTextMessage "/start" s).1).1.isActive = false) ∧
    ((handleTextMessage "/start" s).2 ++
        (handleTextMessage "/stop" (handleTextMessage "/start" s).1).2 =
      ["GM", "🚀 GM broadcasting started! I'll send GM every 30 seconds.",
        "🛑 GM broadcasting stopped."]) ∧
    (((handleTextMessage "/start" s).2 ++
        (handleTextMessage "/stop" (handleTextMessage "/start" s).1).2).count "GM" = 1) :=
  ⟨rfl, rfl, rfl⟩

/-- C7: a message whose sender inbox id equals the agent's own (case
insensitively) is dropped: no record, no reply, and the whole state —
all four collections and the broadcasting flag — is untouched. -/
theorem c7_self_messages_ignored (env : Env) (m : InboundMessage) (s : BotState)
    (h : strToLower m.senderInboxId = strToLower env.agentInboxId) :
    processMessage env m s = (s, []) :=
  processMessage_self env m s (beq_iff_eq.mpr h)

/-- Witness for C7: a message from the agent's own inbox id in different
case is ignored. -/
theorem c7_self_messages_ignored_witness :
    processMessage ⟨"AgentX", fun _ => some "0xabc", fun _ => true⟩
      ⟨"agentx", "conv1", some "text", "gm"⟩ initState = (initState, []) :=
  c7_self_messages_ignored _ _ _ (by decide)

/-- C8: for a text whose trimmed, lowercased content is none of the
recognized commands, the dispatcher replies exactly once with "GM" when the
content contains "gm", and otherwise sends nothing and changes nothing. -/
theorem c8_gm_fallback (content : String) (s : BotState)
    (h1 : strTrim (strToLower content) ≠ "/start")
    (h2 : strTrim (strToLower content) ≠ "/stop")
    (h3 : strTrim (strToLower content) ≠ "/status")
    (h4 : strTrim (strToLower content) ≠ "/stats")
    (h5 : strTrim (strToLower content) ≠ "/report") :
    (strContains (strTrim (strToLower content)) "gm" = true →
      handleTextMessage content s = (s, ["GM"])) ∧
    (strContains (strTrim (strToLower content)) "gm" = false →
      handleTextMessage content s = (s, [])) := by
  have b1 : (strTrim (strToLower content) == "/start") = false := beq_eq_false_iff_ne.mpr h1
  have b2 : (strTrim (strToLower content) == "/stop") = false := beq_eq_false_iff_ne.mpr h2
  have b3 : (strTrim (strToLower content) == "/status") = false := beq_eq_false_iff_ne.mpr h3
  have b4 : (strTrim (strToLower content) == "/stats") = false := beq_eq_false_iff_ne.mpr h4
  have b5 : (strTrim (strToLower content) == "/report") = false := beq_eq_false_iff_ne.mpr h5
  unfold handleTextMessage
  refine ⟨fun hg => ?_, fun hg => ?_⟩ <;> simp [b1, b2, b3, b4, b5, hg]

/-- Witness for C8: "hello gm" is not a command and earns exactly one
"GM" reply with no state change. -/
theorem c8_gm_fallback_witness :
    handleTextMessage "hello gm" initState = (initState, ["GM"]) :=
  (c8_gm_fallback "hello gm" initState (by decide) (by decide) (by decide) (by decide)
    (by decide)).1 (by decide)

/-- C1 (amended): for an inbound text message whose sender differs from the
agent, whose address resolves, whose resolved address is not the excluded
tracking address, and whose conversation lookup succeeds, exactly one
MessageRecord is appended and the sender's AgentResponse record ends up
with `lastResponseTime` at least the appended record's timestamp. -/
theorem c1_tracked_text_message (env : Env) (m : InboundMessage) (s : BotState) (a : String)
    (hself : strToLower m.senderInboxId ≠ strToLower env.agentInboxId)
    (hres : env.resolveAddress m.senderInboxId = some a)
    (hskip : strToLower a ≠ strToLower SKIP_TRACKING_ADDRESS)
    (hconv : env.convExists m.conversationId = true)
    (htext : m.contentTypeId = some "text") :
    (processMessage env m s).1.messageHistory = s.messageHistory ++
      [⟨m.senderInboxId, a, s.now, m.conversationId, some m.content, "text"⟩] ∧
    ∃ r, (processMessage env m s).1.agentResponses.find?
        (fun x => x.senderInboxId == m.senderInboxId) = some r ∧
      s.now ≤ r.lastResponseTime := by
  have bself : (strToLower m.senderInboxId == strToLower env.agentInboxId) = false :=
    beq_eq_false_iff_ne.mpr hself
  have bskip : (strToLower a == strToLower SKIP_TRACKING_ADDRESS) = false :=
    beq_eq_false_iff_ne.mpr hskip
  rw [processMessage_track_text env m s a bself hres bskip hconv htext]
  constructor
  · rw [(updateAgentResponse_frame _ _ _ _).1]
    rw [(handleTextMessage_frame _ _).1]
  · set s2 : BotState :=
      { s with
        messageHistory := s.messageHistory ++
          [⟨m.senderInboxId, a, s.now, m.conversationId, some m.content, "text"⟩]
        uniqueSenders := addSet s.uniqueSenders m.senderInboxId
        uniqueWalletAddresses := addSet s.uniqueWalletAddresses a
        activeConversations := addSet s.activeConversations m.conversationId
        now := s.now + 1 } with hs2
    rcases updateAgentResponse_lookup (handleTextMessage m.content s2).1
        m.senderInboxId a m.conversationId with ⟨r, hr, ht⟩
    refine ⟨r, hr, ?_⟩
    rw [ht]
    have h1 : s2.now ≤ (handleTextMessage m.content s2).1.now :=
      (handleTextMessage_frame m.content s2).2.2.2.2.2
    have h2 : s2.now = s.now + 1 := by rw [hs2]
    omega

/-- Witness for C1 (amended) on a concrete tracked text message. -/
theorem c1_tracked_text_message_witness :
    (processMessage ⟨"agent", fun _ => some "0xabc", fun _ => true⟩
        ⟨"alice", "conv1", some "text", "hello gm"⟩ initState).1.messageHistory =
      initState.messageHistory ++ [⟨"alice", "0xabc", 0, "conv1", some "hello gm", "text"⟩] :=
  (c1_tracked_text_message ⟨"agent", fun _ => some "0xabc", fun _ => true⟩
    ⟨"alice", "conv1", some "text", "hello gm"⟩ initState "0xabc"
    (by decide) rfl (by decide) rfl rfl).1

/-- Counterexample to C1 as stated: a text message from a sender that is
not the agent, whose address resolves (to the excluded tracking address)
and whose conversation lookup succeeds, appends no MessageRecord at all
and creates no AgentResponse record. -/
theorem c1_counterexample :
    strToLower "alice" ≠ strToLower "agent" ∧
    (fun (_ : String) => some SKIP_TRACKING_ADDRESS) "alice" = some SKIP_TRACKING_ADDRESS ∧
    (fun (_ : String) => true) "conv1" = true ∧
    (processMessage ⟨"agent", fun _ => some SKIP_TRACKING_ADDRESS, fun _ => true⟩
        ⟨"alice", "conv1", some "text", "hello"⟩ initState).1.messageHistory = [] ∧
    (processMessage ⟨"agent", fun _ => some SKIP_TRACKING_ADDRESS, fun _ => true⟩
        ⟨"alice", "conv1", some "text", "hello"⟩ initState).1.agentResponses = [] := by
  refine ⟨by decide, rfl, rfl, by decide, by decide⟩

/-- C2 (amended): a conversation id is in the active set exactly when some
tracked message for it was ingested with a successful conversation lookup,
and no later broadcast send attempt to it failed. -/
theorem c2_active_set_characterization (env : Env) (tr : List Event) (c : String) :
    c ∈ (runState env initState tr).activeConversations ↔
      addedSince env c tr (runLog env initState tr) = true := by
  rw [runState_active_iff env c tr initState]
  simp [initState]

/-- Counterexample to C2 as stated: with the conversation lookup failing,
a message for "conv1" is ingested into the history, no send to it ever
fails, and yet "conv1" is not in the active set — the membership
equivalence with the claim's reading of "ingested" is false. -/
theorem c2_counterexample :
    (runState ⟨"agent", fun _ => some "0xabc", fun _ => false⟩ initState
        [Event.inbound ⟨"alice", "conv1", some "text", "hi"⟩]).messageHistory =
      [⟨"alice", "0xabc", 0, "conv1", some "hi", "text"⟩] ∧
    noFailTo "conv1" (runLog ⟨"agent", fun _ => some "0xabc", fun _ => false⟩ initState
        [Event.inbound ⟨"alice", "conv1", some "text", "hi"⟩]) = true ∧
    ¬(("conv1" ∈ (runState ⟨"agent", fun _ => some "0xabc", fun _ => false⟩ initState
          [Event.inbound ⟨"alice", "conv1", some "text", "hi"⟩]).activeConversations) ↔
        addedSinceOrig ⟨"agent", fun _ => some "0xabc", fun _ => false⟩ "conv1"
          [Event.inbound ⟨"alice", "conv1", some "text", "hi"⟩]
          (runLog ⟨"agent", fun _ => some "0xabc", fun _ => false⟩ initState
            [Event.inbound ⟨"alice", "conv1", some "text", "hi"⟩]) = true) := by
  refine ⟨by decide, by decide, ?_⟩
  intro hiff
  have : "conv1" ∈ (runState ⟨"agent", fun _ => some "0xabc", fun _ => false⟩ initState
      [Event.inbound ⟨"alice", "conv1", some "text", "hi"⟩]).activeConversations :=
    hiff.mpr (by decide)
  exact absurd this (by decide)

/-- C3 (amended): on a broadcast tick with the flag active, every active
conversation whose lookup succeeds and whose two sends succeed receives
"ping" then "GM", and the response record of the sender of the last
matching history record is updated (to a time at least the tick-start
clock).  The `ReachInv` hypothesis packages what holds in every reachable
state: active conversations are backed by history records from tracked
senders. -/
theorem c3_broadcast_success (env : Env) (f : String → String → Bool) (s : BotState) (c : String)
    (hinv : ReachInv s) (hact : s.isActive = true) (hc : c ∈ s.activeConversations)
    (hconv : env.convExists c = true)
    (hping : f c "ping" = true) (hgm : f c "GM" = true) :
    ∃ latest,
      (s.messageHistory.filter (fun r => r.conversationId == c)).getLast? = some latest ∧
      (⟨c, "ping", true⟩ : SendEvent) ∈ (broadcastTick env f s).2 ∧
      (⟨c, "GM", true⟩ : SendEvent) ∈ (broadcastTick env f s).2 ∧
      ∃ r', (broadcastTick env f s).1.agentResponses.find?
          (fun x => x.senderInboxId == latest.senderInboxId) = some r' ∧
        s.now ≤ r'.lastResponseTime := by
  rcases hinv.2.2.2 c hc with ⟨r0, hr0m, hr0c⟩
  have hne : (s.messageHistory.filter (fun r => r.conversationId == c)) ≠ [] := by
    intro hnil
    have : r0 ∈ s.messageHistory.filter (fun r => r.conversationId == c) :=
      List.mem_filter.mpr ⟨hr0m, beq_iff_eq.mpr hr0c⟩
    rw [hnil] at this
    cases this
  rcases hlast : (s.messageHistory.filter (fun r => r.conversationId == c)).getLast? with _ | latest
  · exact absurd (List.getLast?_eq_none_iff.mp hlast) hne
  have hlmem : latest ∈ s.messageHistory :=
    (List.mem_filter.mp (List.mem_of_mem_getLast? hlast)).1
  have hskip : (strToLower latest.senderAddress == strToLower SKIP_TRACKING_ADDRESS) = false :=
    beq_eq_false_iff_ne.mpr (hinv.2.2.1 latest hlmem)
  have htick : broadcastTick env f s = tickLoop env f s.activeConversations s := by
    unfold broadcastTick
    simp [hact]
  rw [htick]
  rcases tickLoop_send_success env f c latest s.activeConversations s hc hconv hlast hskip
    hping hgm with ⟨hp, hg⟩
  rcases tickLoop_updates env f c latest s.activeConversations s hinv hc hconv hlast hskip
    hping hgm with ⟨r', hr', hle⟩
  exact ⟨latest, hlast, hp, hg, r', hr', hle⟩

/-- Witness for C3 (amended) on a concrete one-conversation state. -/
theorem c3_broadcast_success_witness :
    ∃ latest,
      (sampleState.messageHistory.filter (fun r => r.conversationId == "conv1")).getLast?
        = some latest ∧
      (⟨"conv1", "ping", true⟩ : SendEvent) ∈
        (broadcastTick sampleEnv (fun _ _ => true) sampleState).2 ∧
      (⟨"conv1", "GM", true⟩ : SendEvent) ∈
        (broadcastTick sampleEnv (fun _ _ => true) sampleState).2 ∧
      ∃ r', (broadcastTick sampleEnv (fun _ _ => true) sampleState).1.agentResponses.find?
          (fun x => x.senderInboxId == latest.senderInboxId) = some r' ∧
        sampleState.now ≤ r'.lastResponseTime :=
  c3_broadcast_success sampleEnv (fun _ _ => true) sampleState "conv1"
    (by decide) rfl (by decide) rfl rfl rfl

/-- Counterexample to C3 as stated: the broadcasting flag is active,
"conv1" is in the active set and its conversation lookup succeeds, yet —
the send failing — no greeting is delivered and no AgentResponse record is
created or updated. -/
theorem c3_counterexample :
    sampleState.isActive = true ∧
    "conv1" ∈ sampleState.activeConversations ∧
    sampleEnv.convExists "conv1" = true ∧
    (broadcastTick sampleEnv (fun _ _ => false) sampleState).1.agentResponses = [] ∧
    (⟨"conv1", "GM", true⟩ : SendEvent) ∉
      (broadcastTick sampleEnv (fun _ _ => false) sampleState).2 := by
  refine ⟨rfl, by decide, rfl, by decide, by decide⟩

/-- C4: a failed broadcast send to conversation `c` removes `c` from the
active set; the same tick still delivers to the other conversations whose
sends succeed; a tick never attempts a conversation outside the active
set; and a newly ingested tracked message for `c` re-adds it. -/
theorem c4_broadcast_failure (env : Env) (f : String → String → Bool) (s : BotState) (c : String)
    (hinv : ReachInv s) (hact : s.isActive = true) (hc : c ∈ s.activeConversations)
    (hconv : env.convExists c = true)
    (hfail : f c "ping" = false ∨ f c "GM" = false) :
    c ∉ (broadcastTick env f s).1.activeConversations ∧
    (∀ d latestd, d ∈ s.activeConversations → env.convExists d = true →
      (s.messageHistory.filter (fun r => r.conversationId == d)).getLast? = some latestd →
      strToLower latestd.senderAddress ≠ strToLower SKIP_TRACKING_ADDRESS →
      f d "ping" = true → f d "GM" = true →
      (⟨d, "GM", true⟩ : SendEvent) ∈ (broadcastTick env f s).2) ∧
    (∀ (t : BotState) (g : String → String → Bool), c ∉ t.activeConversations →
      ∀ e ∈ (broadcastTick env g t).2, e.conv ≠ c) ∧
    (∀ (m : InboundMessage) (t : BotState) (a : String), m.conversationId = c →
      strToLower m.senderInboxId ≠ strToLower env.agentInboxId →
      env.resolveAddress m.senderInboxId = some a →
      strToLower a ≠ strToLower SKIP_TRACKING_ADDRESS →
      c ∈ (processMessage env m t).1.activeConversations) := by
  have htick : broadcastTick env f s = tickLoop env f s.activeConversations s := by
    unfold broadcastTick
    simp [hact]
  rcases hinv.2.2.2 c hc with ⟨r0, hr0m, hr0c⟩
  have hne : (s.messageHistory.filter (fun r => r.conversationId == c)) ≠ [] := by
    intro hnil
    have : r0 ∈ s.messageHistory.filter (fun r => r.conversationId == c) :=
      List.mem_filter.mpr ⟨hr0m, beq_iff_eq.mpr hr0c⟩
    rw [hnil] at this
    cases this
  rcases hlast : (s.messageHistory.filter (fun r => r.conversationId == c)).getLast? with _ | latest
  · exact absurd (List.getLast?_eq_none_iff.mp hlast) hne
  have hlmem : latest ∈ s.messageHistory :=
    (List.mem_filter.mp (List.mem_of_mem_getLast? hlast)).1
  have hskip : (strToLower latest.senderAddress == strToLower SKIP_TRACKING_ADDRESS) = false :=
    beq_eq_false_iff_ne.mpr (hinv.2.2.1 latest hlmem)
  refine ⟨?_, ?_, ?_, ?_⟩
  · rw [htick]
    intro hmem
    have hft : failTo c (tickLoop env f s.activeConversations s).2 = true :=
      tickLoop_fail_any env f c latest s.activeConversations s hc hconv hlast hskip hfail
    rw [tickLoop_mem env f s.activeConversations s c] at hmem
    rw [hft] at hmem
    cases hmem.2
  · intro d latestd hd hdconv hdlast hdskip hdping hdgm
    rw [htick]
    exact (tickLoop_send_success env f d latestd s.activeConversations s hd hdconv hdlast
      (beq_eq_false_iff_ne.mpr hdskip) hdping hdgm).2
  · intro t g hct e he
    unfold broadcastTick at he
    split at he
    · cases he
    · intro hec
      exact hct (hec ▸ tickLoop_sends env g t.activeConversations t e he)
  · intro m t a hmc hmself hmres hmskip
    rw [processMessage_mem env m t c]
    refine Or.inr ?_
    subst hmc
    simp [qualifies, beq_eq_false_iff_ne.mpr hmself, hmres,
      beq_eq_false_iff_ne.mpr hmskip, hconv]

/-- Witness for C4: on the concrete one-conversation state, the failing
send evicts "conv1" from the active set. -/
theorem c4_broadcast_failure_witness :
    "conv1" ∉ (broadcastTick sampleEnv (fun _ _ => false) sampleState).1.activeConversations :=
  (c4_broadcast_failure sampleEnv (fun _ _ => false) sampleState "conv1"
    (by decide) rfl (by decide) rfl (Or.inl rfl)).1

/-- C9: the response map holds at most one record per sender inbox id in
every reachable state, and `updateAgentResponse` never decreases any
stored `lastResponseTime`. -/
theorem c9_response_map_invariants (env : Env) (tr : List Event) :
    ((runState env initState tr).agentResponses.map (fun r => r.senderInboxId)).Nodup ∧
    (∀ id a c j r2,
      (runState env initState tr).agentResponses.find?
          (fun x => x.senderInboxId == j) = some r2 →
      ∃ r2', (updateAgentResponse (runState env initState tr) id a c).agentResponses.find?
          (fun x => x.senderInboxId == j) = some r2' ∧
        r2.lastResponseTime ≤ r2'.lastResponseTime) := by
  have hinv := run_inv env tr initState initState_inv
  exact ⟨hinv.1, fun id a c j r2 hj =>
    updateAgentResponse_mono _ id a c hinv.2.1 j r2 hj⟩

/-- Witness for C9 on a one-message trace. -/
theorem c9_response_map_invariants_witness :
    ((runState sampleEnv initState
        [Event.inbound ⟨"alice", "conv1", some "text", "hi"⟩]).agentResponses.map
      (fun r => r.senderInboxId)).Nodup ∧
    ∃ r2', (updateAgentResponse
        (runState sampleEnv initState [Event.inbound ⟨"alice", "conv1", some "text", "hi"⟩])
        "bob" "0xb0b" "conv2").agentResponses.find?
        (fun x => x.senderInboxId == "alice") = some r2' ∧
      1 ≤ r2'.lastResponseTime :=
  ⟨(c9_response_map_invariants sampleEnv
      [Event.inbound ⟨"alice", "conv1", some "text", "hi"⟩]).1,
    (c9_response_map_invariants sampleEnv
      [Event.inbound ⟨"alice", "conv1", some "text", "hi"⟩]).2
      "bob" "0xb0b" "conv2" "alice" ⟨"alice", "0xabc", 1, "conv1"⟩ (by decide)⟩

/-- Excluded-address path, text message with found conversation: the
dispatcher runs on the untracked state. -/
theorem processMessage_skip_text (env : Env) (m : InboundMessage) (s : BotState) (a : String)
    (hself : (strToLower m.senderInboxId == strToLower env.agentInboxId) = false)
    (hres : env.resolveAddress m.senderInboxId = some a)
    (hskip : (strToLower a == strToLower SKIP_TRACKING_ADDRESS) = true)
    (hconv : env.convExists m.conversationId = true)
    (htext : m.contentTypeId = some "text") :
    processMessage env m s =
      ((handleTextMessage m.content s).1,
        (handleTextMessage m.content s).2.map (fun t => ⟨m.conversationId, t, true⟩)) := by
  unfold processMessage
  simp [hself, hres, hskip, hconv, htext]

/-- Excluded-address path in the remaining cases: nothing at all happens. -/
theorem processMessage_skip_other (env : Env) (m : InboundMessage) (s : BotState) (a : String)
    (hself : (strToLower m.senderInboxId == strToLower env.agentInboxId) = false)
    (hres : env.resolveAddress m.senderInboxId = some a)
    (hskip : (strToLower a == strToLower SKIP_TRACKING_ADDRESS) = true)
    (h : env.convExists m.conversationId = false ∨ (m.contentTypeId == some "text") = false) :
    processMessage env m s = (s, []) := by
  unfold processMessage
  cases hcv : env.convExists m.conversationId
  · simp [hself, hres, hskip, hcv]
  · rcases h with h | h
    · rw [hcv] at h
      cases h
    · simp [hself, hres, hskip, hcv, h]

/-- C10: a message resolving to the excluded tracking address is still
dispatched to the text handler but leaves the history, both uniqueness
sets, the active set and the response map untouched; and the broadcast
timer neither sends to nor evicts a conversation whose latest tracked
record carries that address. -/
theorem c10_skip_address :
    (∀ (env : Env) (m : InboundMessage) (s : BotState) (a : String),
      strToLower m.senderInboxId ≠ strToLower env.agentInboxId →
      env.resolveAddress m.senderInboxId = some a →
      strToLower a = strToLower SKIP_TRACKING_ADDRESS →
      (processMessage env m s).1.messageHistory = s.messageHistory ∧
      (processMessage env m s).1.uniqueSenders = s.uniqueSenders ∧
      (processMessage env m s).1.uniqueWalletAddresses = s.uniqueWalletAddresses ∧
      (processMessage env m s).1.activeConversations = s.activeConversations ∧
      (processMessage env m s).1.agentResponses = s.agentResponses ∧
      (env.convExists m.conversationId = true → m.contentTypeId = some "text" →
        (processMessage env m s).2 =
          (handleTextMessage m.content s).2.map (fun t => ⟨m.conversationId, t, true⟩) ∧
        (processMessage env m s).1.isActive = (handleTextMessage m.content s).1.isActive)) ∧
    (∀ (env : Env) (f : String → String → Bool) (s : BotState) (c : String)
        (latest : MessageRecord),
      (s.messageHistory.filter (fun r => r.conversationId == c)).getLast? = some latest →
      strToLower latest.senderAddress = strToLower SKIP_TRACKING_ADDRESS →
      (∀ e ∈ (broadcastTick env f s).2, e.conv ≠ c) ∧
      (c ∈ s.activeConversations → c ∈ (broadcastTick env f s).1.activeConversations)) := by
  constructor
  · intro env m s a hself hres hskip
    have bself := beq_eq_false_iff_ne.mpr hself
    have bskip := beq_iff_eq.mpr hskip
    by_cases hconv : env.convExists m.conversationId = true
    · by_cases htext : m.contentTypeId = some "text"
      · rw [processMessage_skip_text env m s a bself hres bskip hconv htext]
        have hf := handleTextMessage_frame m.content s
        exact ⟨hf.1, hf.2.2.1, hf.2.2.2.1, hf.2.1, hf.2.2.2.2.1, fun _ _ => ⟨rfl, rfl⟩⟩
      · rw [processMessage_skip_other env m s a bself hres bskip
          (Or.inr (by simp [htext]))]
        exact ⟨rfl, rfl, rfl, rfl, rfl, fun _ ht => absurd ht htext⟩
    · have hconv' : env.convExists m.conversationId = false := by
        cases hcv : env.convExists m.conversationId
        · rfl
        · exact absurd hcv hconv
      rw [processMessage_skip_other env m s a bself hres bskip (Or.inl hconv')]
      exact ⟨rfl, rfl, rfl, rfl, rfl, fun hcv => absurd hcv hconv⟩
  · intro env f s c latest hlast hskip
    unfold broadcastTick
    split
    · refine ⟨?_, fun h => h⟩
      intro e he
      cases he
    · exact tickLoop_skipconv env f c latest s.activeConversations s hlast
        (beq_iff_eq.mpr hskip)

/-- Witness for C10: a text from the excluded address is dispatched (its
"GM" reply goes out) yet the message history is untouched. -/
theorem c10_skip_address_witness :
    (processMessage skipEnv ⟨"alice", "conv1", some "text", "gm"⟩ initState).1.messageHistory
      = initState.messageHistory ∧
    (processMessage skipEnv ⟨"alice", "conv1", some "text", "gm"⟩ initState).2 =
      (handleTextMessage "gm" initState).2.map (fun t => ⟨"conv1", t, true⟩) := by
  have h := c10_skip_address.1 skipEnv ⟨"alice", "conv1", some "text", "gm"⟩ initState
    SKIP_TRACKING_ADDRESS (by decide) rfl rfl
  exact ⟨h.1, (h.2.2.2.2.2 rfl rfl).1⟩
